import Mathlib

/-!
# Stepper axis driver (`src/Stepper.h`)

A shallow embedding of the `TeensyStep::Stepper` class: its configuration
constants, the pulse primitives `doStep`, `clearStepPin`, `setDir`, `toggleDir`
in both builds, the position accessors and the four comparator functions,
followed by the properties established about them. The target-queue operations
are declared in the header and defined outside it; they are not embedded.

Conventions.
* `int32_t` values are integers; every arithmetic result that is stored back
  into an `int32_t` goes through `wrap32` (two's complement, 32 bits).
* `uint8_t` / `uint32_t` values are natural numbers.
* The hardware the class writes to is explicit state next to the object: a map
  from pin number to logic level for the `digitalWrite` build, and the list of
  register stores for the direct-register build.
-/

namespace TeensyStep

/-! ## Machine integers -/

/-- Values representable in `int32_t`. -/
def isInt32 (x : Int) : Prop := -2147483648 ≤ x ∧ x ≤ 2147483647

instance (x : Int) : Decidable (isInt32 x) := by
  unfold isInt32
  infer_instance

/-- Reduction of an integer result to `int32_t` (two's complement wrap-around). -/
def wrap32 (x : Int) : Int := (x + 2147483648) % 4294967296 - 2147483648

/-- The function `std::abs` on `int32_t`: `x < 0 ? -x : x`, computed in 32 bits. -/
def abs32 (x : Int) : Int := if x < 0 then wrap32 (-x) else x

/-- The C++ operator `!` on an integer value, as the integer it promotes to. -/
def lnot (v : Nat) : Nat := if v = 0 then 1 else 0

/-- Internal representation of a target (`Stepper::Target`). -/
structure Target where
  target : Int
  speed : Int := 0
  vPullIn : Int := -1
  vPullOut : Int := -1
  abs : Bool := false
  deriving DecidableEq, Repr

/-- The fields of `class Stepper` in the build without direct register access
(the `#else` branches). -/
structure Stepper where
  dir : Int
  current : Int
  currentSpeed : Int
  target : Int
  targets : List Target
  t_index : Nat
  A : Int
  B : Int
  vMax : Int
  vPullIn : Int
  vPullOut : Int
  a : Nat
  polarity : Nat
  reverse : Nat
  stepPin : Int
  dirPin : Int
  name : String
  deriving DecidableEq, Repr

/-- Logic levels of the output pins, by pin number (`true` is HIGH). -/
abbrev Pins := Int → Bool

/-- One axis object together with the output pins it drives. -/
structure Machine where
  axis : Stepper
  pins : Pins

/-- Logic level that a value passed to the digital-output primitive stands for:
zero (`LOW`) is the low level, any other value (`HIGH`) the high level. -/
def levelOf (val : Nat) : Bool := decide (val ≠ 0)

/-- Modelled from the spec: `digitalWrite(pin, val)`, the digital-output primitive
of the environment (write pin state), which is not part of this repository. The
pin takes the level `val` stands for; other pins keep their level. -/
def digitalWrite (pin : Int) (val : Nat) (pins : Pins) : Pins :=
  fun q => if q = pin then levelOf val else pins q

namespace Stepper

/-- Source of `vMaxMax`: `static constexpr int32_t vMaxMax = 300000;`, the largest
speed possible (steps/s). -/
def vMaxMax : Int := 300000

/-- Source of `aMax`: `static constexpr uint32_t aMax = 500000;`, speed up to 500kHz
within 1 s (steps/s^2). -/
def aMax : Nat := 500000

/-- Source of `vMaxDefault`: `static constexpr uint32_t vMaxDefault = 800;` -/
def vMaxDefault : Nat := 800

/-- Source of `vPullInOutDefault`: `static constexpr uint32_t vPullInOutDefault = 100;` -/
def vPullInOutDefault : Nat := 100

/-- Source of `aDefault`: `static constexpr uint32_t aDefault = 2500;` -/
def aDefault : Nat := 2500

/-- Source of `getPosition`: `getPosition() const { return current; }` -/
def getPosition (m : Machine) : Int := m.axis.current

/-- Source of `setPosition`: `setPosition(int32_t pos) { current = pos; }` -/
def setPosition (pos : Int) (m : Machine) : Machine :=
  { m with axis := { m.axis with current := pos } }

/-- Source of `doStep`: `doStep()`: `digitalWrite(stepPin, polarity); current += dir;` -/
def doStep (m : Machine) : Machine :=
  { axis := { m.axis with current := wrap32 (m.axis.current + m.axis.dir) },
    pins := digitalWrite m.axis.stepPin m.axis.polarity m.pins }

/-- Source of `clearStepPin`: `clearStepPin() const`: `digitalWrite(stepPin, !polarity);` -/
def clearStepPin (m : Machine) : Machine :=
  { m with pins := digitalWrite m.axis.stepPin (lnot m.axis.polarity) m.pins }

/-- Source of `setDir`: `setDir(int d)`: `dir = d; digitalWrite(dirPin, dir == 1 ? reverse : !reverse);` -/
def setDir (d : Int) (m : Machine) : Machine :=
  { axis := { m.axis with dir := d },
    pins := digitalWrite m.axis.dirPin
      (if d = 1 then m.axis.reverse else lnot m.axis.reverse) m.pins }

/-- Source of `toggleDir`: `toggleDir()`: `setDir(-dir);` -/
def toggleDir (m : Machine) : Machine := setDir (wrap32 (-m.axis.dir)) m

/-- Source of `cmpDelta`: `cmpDelta(a, b) { return a->A > b->A; }` -/
def cmpDelta (a b : Stepper) : Bool := decide (a.A > b.A)

/-- Source of `cmpAcc`: `cmpAcc(a, b) { return a->a < b->a; }` -/
def cmpAcc (a b : Stepper) : Bool := decide (a.a < b.a)

/-- Source of `cmpVmin`: `cmpVmin(a, b) { return std::abs(a->vMax) < std::abs(b->vMax); }` -/
def cmpVmin (a b : Stepper) : Bool := decide (abs32 a.vMax < abs32 b.vMax)

/-- Source of `cmpVmax`: `cmpVmax(a, b) { return std::abs(a->vMax) > std::abs(b->vMax); }` -/
def cmpVmax (a b : Stepper) : Bool := decide (abs32 a.vMax > abs32 b.vMax)

end Stepper

/-! ## The direct-register build -/

namespace Kinetis

/-- The fields of `class Stepper` in the build with direct register access
(`__MK20DX128__`, `__MK20DX256__`, `__MK64FX512__`, `__MK66FX1M0__`): the four
register pointers take the place of `polarity` and `reverse`. A pointer is the
address it holds. -/
structure Stepper where
  dir : Int
  current : Int
  currentSpeed : Int
  target : Int
  targets : List Target
  t_index : Nat
  A : Int
  B : Int
  vMax : Int
  vPullIn : Int
  vPullOut : Int
  a : Nat
  stepPinActiveReg : Nat
  stepPinInactiveReg : Nat
  dirPinCwReg : Nat
  dirPinCcwReg : Nat
  stepPin : Int
  dirPin : Int
  name : String
  deriving DecidableEq, Repr

/-- One axis object together with the stores it has made to hardware registers,
oldest first, each as (address, value). -/
structure Machine where
  axis : Stepper
  stores : List (Nat × Nat)
  deriving DecidableEq, Repr

/-- Source of `setPosition`: `setPosition(int32_t pos) { current = pos; }`, the same
in both builds. -/
def setPosition (pos : Int) (m : Machine) : Machine :=
  { m with axis := { m.axis with current := pos } }

/-- Source of `doStep`: `doStep()`: `*stepPinActiveReg = 1; current += dir;` -/
def doStep (m : Machine) : Machine :=
  { axis := { m.axis with current := wrap32 (m.axis.current + m.axis.dir) },
    stores := m.stores ++ [(m.axis.stepPinActiveReg, 1)] }

/-- Source of `clearStepPin`: `clearStepPin() const`: `*stepPinInactiveReg = 1;` -/
def clearStepPin (m : Machine) : Machine :=
  { m with stores := m.stores ++ [(m.axis.stepPinInactiveReg, 1)] }

/-- Source of `setDir`: `setDir(int d)`: `dir = d; dir == 1 ? *dirPinCwReg = 1 : *dirPinCcwReg = 1;` -/
def setDir (d : Int) (m : Machine) : Machine :=
  { axis := { m.axis with dir := d },
    stores := m.stores ++
      [(if d = 1 then m.axis.dirPinCwReg else m.axis.dirPinCcwReg, 1)] }

/-- Source of `toggleDir`: `toggleDir()`: `setDir(-dir);` -/
def toggleDir (m : Machine) : Machine := setDir (wrap32 (-m.axis.dir)) m

end Kinetis

/-- Level of the step pin of the axis. -/
def stepPinLevel (m : Machine) : Bool := m.pins m.axis.stepPin

/-- Level of the direction pin of the axis. -/
def dirPinLevel (m : Machine) : Bool := m.pins m.axis.dirPin

/-! ## Call sequences -/

/-- The calls on an axis that the properties below quantify over. -/
inductive Op where
  | setDir (d : Int)
  | toggleDir
  | setPosition (pos : Int)
  | clearStepPin
  | doStep
  deriving DecidableEq, Repr

/-- Effect of one call. -/
def Op.apply : Op → Machine → Machine
  | .setDir d => Stepper.setDir d
  | .toggleDir => Stepper.toggleDir
  | .setPosition pos => Stepper.setPosition pos
  | .clearStepPin => Stepper.clearStepPin
  | .doStep => Stepper.doStep

/-- Effect of a sequence of calls, first call first. -/
def run : List Op → Machine → Machine
  | [], m => m
  | op :: ops, m => run ops (op.apply m)

/-- Effect of one call in the direct-register build. -/
def Kinetis.apply : Op → Kinetis.Machine → Kinetis.Machine
  | .setDir d => Kinetis.setDir d
  | .toggleDir => Kinetis.toggleDir
  | .setPosition pos => Kinetis.setPosition pos
  | .clearStepPin => Kinetis.clearStepPin
  | .doStep => Kinetis.doStep

/-- Effect of a sequence of calls in the direct-register build, first call first. -/
def Kinetis.run : List Op → Kinetis.Machine → Kinetis.Machine
  | [], k => k
  | op :: ops, k => Kinetis.run ops (Kinetis.apply op k)

/-- A comparator on axes that is a strict weak ordering: irreflexive, asymmetric,
transitive, and with transitive incomparability. -/
def IsStrictWeakOrder (cmp : Stepper → Stepper → Bool) : Prop :=
  (∀ x, cmp x x = false) ∧
  (∀ x y, cmp x y = true → cmp y x = false) ∧
  (∀ x y z, cmp x y = true → cmp y z = true → cmp x z = true) ∧
  (∀ x y z, cmp x y = false ∧ cmp y x = false → cmp y z = false ∧ cmp z y = false →
    cmp x z = false ∧ cmp z x = false)

/-- A call that, if it is a `setDir`, passes `+1` or `-1`. -/
def Op.unitDir : Op → Prop
  | .setDir d => d = 1 ∨ d = -1
  | _ => True

instance (op : Op) : Decidable op.unitDir := by
  cases op <;> unfold Op.unitDir <;> infer_instance

/-- An axis used as the concrete instance in the examples: step pin 2, direction
pin 3, active-high pulses, no inversion, both pins LOW. -/
def sampleAxis : Stepper :=
  { dir := 1, current := 0, currentSpeed := 0, target := 0, targets := [], t_index := 0,
    A := 0, B := 0, vMax := 800, vPullIn := 100, vPullOut := 100, a := 2500,
    polarity := 1, reverse := 0, stepPin := 2, dirPin := 3, name := "" }

/-- The sample axis with all pins LOW. -/
def sampleMachine : Machine := { axis := sampleAxis, pins := fun _ => false }

/-- An axis object whose members `stepPin` and `dirPin` hold the same pin number, 2,
with all pins LOW. The two members are independent `const int` members (line 91),
taken from the two `int` parameters `StepPin`, `DirPin` of the constructor declared
on line 19; the header puts no relation between them. -/
def sharedPinMachine : Machine :=
  { axis := { sampleAxis with dirPin := 2 }, pins := fun _ => false }

/-- The sample axis of the direct-register build, before any register store. -/
def Kinetis.sampleMachine : Kinetis.Machine :=
  { axis :=
      { dir := 1, current := 0, currentSpeed := 0, target := 0, targets := [], t_index := 0,
        A := 0, B := 0, vMax := 800, vPullIn := 100, vPullOut := 100, a := 2500,
        stepPinActiveReg := 1, stepPinInactiveReg := 2, dirPinCwReg := 3, dirPinCcwReg := 4,
        stepPin := 2, dirPin := 3, name := "" },
    stores := [] }

open Stepper

/-! ## Arithmetic facts about the 32-bit reduction -/

theorem wrap32_of_isInt32 {x : Int} (h : isInt32 x) : wrap32 x = x := by
  unfold isInt32 at h
  unfold wrap32
  omega

theorem isInt32_wrap32 (x : Int) : isInt32 (wrap32 x) := by
  unfold isInt32 wrap32
  omega

theorem wrap32_neg_wrap32_neg {x : Int} (h : isInt32 x) : wrap32 (-wrap32 (-x)) = x := by
  unfold isInt32 at h
  unfold wrap32
  omega

theorem wrap32_neg_unit {x : Int} (h : x = 1 ∨ x = -1) :
    wrap32 (-x) = 1 ∨ wrap32 (-x) = -1 := by
  rcases h with h | h <;> subst h
  · right; decide
  · left; decide

/-! ## Stepping a counter -/

/-- A step function that adds an unchanging direction `e = ±1` to a 32-bit counter
adds `e * N` in `N` steps, as long as the end value is representable. -/
theorem iterate_step_counter {α : Type} (f : α → α) (cur dir : α → Int)
    (hcur : ∀ x, cur (f x) = wrap32 (cur x + dir x)) (hdir : ∀ x, dir (f x) = dir x)
    (e : Int) (he : e = 1 ∨ e = -1) (N : Nat) :
    ∀ x, dir x = e → isInt32 (cur x) → isInt32 (cur x + e * N) →
      cur (f^[N] x) = cur x + e * N := by
  induction N with
  | zero => intro x _ _ _; simp
  | succ n ih =>
    intro x hd h0 hN
    have hstep : cur (f x) = cur x + e := by
      rw [hcur, hd]
      apply wrap32_of_isInt32
      unfold isInt32 at h0 hN ⊢
      push_cast at hN
      rcases he with he | he <;> subst he <;> omega
    rw [Function.iterate_succ_apply]
    have h1 : isInt32 (cur (f x)) := by
      rw [hstep]
      unfold isInt32 at h0 hN ⊢
      push_cast at hN
      rcases he with he | he <;> subst he <;> omega
    have h2 : isInt32 (cur (f x) + e * n) := by
      rw [hstep]
      unfold isInt32 at h0 hN ⊢
      push_cast at hN
      rcases he with he | he <;> subst he <;> omega
    rw [ih (f x) (by rw [hdir, hd]) h1 h2, hstep]
    push_cast
    ring

/-! ## Frame facts for the single calls -/

theorem levelOf_lnot (v : Nat) : levelOf (lnot v) = !levelOf v := by
  unfold levelOf lnot
  by_cases h : v = 0 <;> simp [h]

theorem digitalWrite_idem (pin : Int) (val : Nat) (pins : Pins) :
    digitalWrite pin val (digitalWrite pin val pins) = digitalWrite pin val pins := by
  funext q
  unfold digitalWrite
  split <;> rfl

theorem digitalWrite_same (pin : Int) (val : Nat) (pins : Pins) :
    digitalWrite pin val pins pin = levelOf val := by
  simp [digitalWrite]

theorem digitalWrite_other (pin q : Int) (val : Nat) (pins : Pins) (h : q ≠ pin) :
    digitalWrite pin val pins q = pins q := by
  simp [digitalWrite, h]

/-- Every call leaves a direction of `±1` at `±1`, provided a `setDir` passes `±1`. -/
theorem Op.apply_dir_unit (op : Op) (m : Machine) (hop : op.unitDir)
    (hm : m.axis.dir = 1 ∨ m.axis.dir = -1) :
    (op.apply m).axis.dir = 1 ∨ (op.apply m).axis.dir = -1 := by
  cases op with
  | setDir d => exact hop
  | toggleDir => exact wrap32_neg_unit hm
  | setPosition pos => exact hm
  | clearStepPin => exact hm
  | doStep => exact hm

/-- A sequence of calls whose `setDir` arguments are `±1` keeps a direction of `±1`. -/
theorem run_dir_unit (ops : List Op) :
    ∀ m : Machine, (∀ op ∈ ops, op.unitDir) → (m.axis.dir = 1 ∨ m.axis.dir = -1) →
      ((run ops m).axis.dir = 1 ∨ (run ops m).axis.dir = -1) := by
  induction ops with
  | nil => intro m _ hm; exact hm
  | cons op ops ih =>
    intro m hops hm
    exact ih (op.apply m) (fun o ho => hops o (List.mem_cons_of_mem _ ho))
      (Op.apply_dir_unit op m (hops op (List.mem_cons_self _ _)) hm)

/-! ## Position counting -/

/-- C1: from a starting position `c`, `N` calls of `doStep` with `dir = +1` leave
`current = c + N`, and with `dir = -1` leave `current = c - N`, as long as the end
value is inside the `int32_t` range; this holds for the `digitalWrite` build and
for the direct-register build. -/
theorem doStep_iterate_current (m : Machine) (k : Kinetis.Machine) (N : Nat)
    (hm : isInt32 m.axis.current) (hk : isInt32 k.axis.current) :
    (m.axis.dir = 1 → isInt32 (m.axis.current + N) →
      getPosition (doStep^[N] m) = m.axis.current + N) ∧
    (m.axis.dir = -1 → isInt32 (m.axis.current - N) →
      getPosition (doStep^[N] m) = m.axis.current - N) ∧
    (k.axis.dir = 1 → isInt32 (k.axis.current + N) →
      (Kinetis.doStep^[N] k).axis.current = k.axis.current + N) ∧
    (k.axis.dir = -1 → isInt32 (k.axis.current - N) →
      (Kinetis.doStep^[N] k).axis.current = k.axis.current - N) := by
  refine ⟨?_, ?_, ?_, ?_⟩
  · intro hd hN
    have h := iterate_step_counter doStep (fun x => x.axis.current) (fun x => x.axis.dir)
      (fun _ => rfl) (fun _ => rfl) 1 (Or.inl rfl) N m hd hm (by simpa using hN)
    simpa [getPosition] using h
  · intro hd hN
    have h := iterate_step_counter doStep (fun x => x.axis.current) (fun x => x.axis.dir)
      (fun _ => rfl) (fun _ => rfl) (-1) (Or.inr rfl) N m hd hm
      (by simpa [sub_eq_add_neg] using hN)
    simpa [getPosition, sub_eq_add_neg] using h
  · intro hd hN
    have h := iterate_step_counter Kinetis.doStep (fun x => x.axis.current)
      (fun x => x.axis.dir) (fun _ => rfl) (fun _ => rfl) 1 (Or.inl rfl) N k hd hk
      (by simpa using hN)
    simpa using h
  · intro hd hN
    have h := iterate_step_counter Kinetis.doStep (fun x => x.axis.current)
      (fun x => x.axis.dir) (fun _ => rfl) (fun _ => rfl) (-1) (Or.inr rfl) N k hd hk
      (by simpa [sub_eq_add_neg] using hN)
    simpa [sub_eq_add_neg] using h

/-- C1, concrete instance: three steps from position 0 with `dir = +1` end at 3 in
both builds. -/
theorem doStep_iterate_current_witness :
    getPosition (doStep^[3] sampleMachine) = 3 ∧
    (Kinetis.doStep^[3] Kinetis.sampleMachine).axis.current = 3 :=
  have h := doStep_iterate_current sampleMachine Kinetis.sampleMachine 3
    (by decide) (by decide)
  ⟨h.1 (by decide) (by decide), h.2.2.1 (by decide) (by decide)⟩

/-! ## The direction field -/

/-- C2, as stated, fails: after `setDir(0)` a `doStep` changes `current` by 0, and
after `setDir(2)` it changes `current` by 2. Also, after `setDir(1)` and
`setPosition(2147483647)` the 32-bit sum wraps, and `current` changes from
`2147483647` to `-2147483648`. -/
theorem doStep_change_counterexample :
    (doStep (run [] (setDir 0 sampleMachine))).axis.current
        - (run [] (setDir 0 sampleMachine)).axis.current = 0 ∧
    (doStep (run [] (setDir 2 sampleMachine))).axis.current
        - (run [] (setDir 2 sampleMachine)).axis.current = 2 ∧
    (doStep (run [Op.setPosition 2147483647] (setDir 1 sampleMachine))).axis.current
        - (run [Op.setPosition 2147483647] (setDir 1 sampleMachine)).axis.current
      = -4294967295 := by
  decide

/-- C2, amended: in every state reached by `setDir(d)` and any further sequence of
`setDir`, `toggleDir`, `setPosition`, `clearStepPin` and `doStep` calls in which
every `setDir` argument is `+1` or `-1`, one `doStep` call changes `current` by
exactly `+1` or exactly `-1`, provided `current + dir` is inside the `int32_t`
range. -/
theorem doStep_changes_current_by_unit (m0 : Machine) (d : Int) (ops : List Op)
    (hd : d = 1 ∨ d = -1) (hops : ∀ op ∈ ops, op.unitDir)
    (hr : isInt32 ((run ops (setDir d m0)).axis.current + (run ops (setDir d m0)).axis.dir)) :
    (doStep (run ops (setDir d m0))).axis.current
        - (run ops (setDir d m0)).axis.current = 1 ∨
    (doStep (run ops (setDir d m0))).axis.current
        - (run ops (setDir d m0)).axis.current = -1 := by
  have hdir := run_dir_unit ops (setDir d m0) hops hd
  have hcur : (doStep (run ops (setDir d m0))).axis.current
      = (run ops (setDir d m0)).axis.current + (run ops (setDir d m0)).axis.dir :=
    wrap32_of_isInt32 hr
  rw [hcur]
  rcases hdir with h | h
  · left; rw [h]; ring
  · right; rw [h]; ring

/-- C2, amended, concrete instance: after `setDir(-1)`, a step, a toggle and a
position reset to 10, the next step moves `current` from 10 to 11. -/
theorem doStep_changes_current_by_unit_witness :
    (doStep (run [Op.doStep, Op.toggleDir, Op.setPosition 10]
        (setDir (-1) sampleMachine))).axis.current
      - (run [Op.doStep, Op.toggleDir, Op.setPosition 10]
        (setDir (-1) sampleMachine)).axis.current = 1 ∨
    (doStep (run [Op.doStep, Op.toggleDir, Op.setPosition 10]
        (setDir (-1) sampleMachine))).axis.current
      - (run [Op.doStep, Op.toggleDir, Op.setPosition 10]
        (setDir (-1) sampleMachine)).axis.current = -1 :=
  doStep_changes_current_by_unit sampleMachine (-1)
    [Op.doStep, Op.toggleDir, Op.setPosition 10] (by decide) (by decide) (by decide)

/-- C3, as stated, fails: after `setDir(3)`, a `toggleDir` and a `doStep`, the `dir`
field is `-3`, whose magnitude is 3. -/
theorem dir_magnitude_counterexample :
    (run [Op.toggleDir, Op.doStep] (setDir 3 sampleMachine)).axis.dir = -3 ∧
    ¬ (run [Op.toggleDir, Op.doStep] (setDir 3 sampleMachine)).axis.dir.natAbs = 1 := by
  decide

/-- C3, amended: after a first `setDir(d)` and any further sequence of `setDir`,
`toggleDir`, `doStep`, `clearStepPin` and `setPosition` calls, with every `setDir`
argument equal to `+1` or `-1`, the `dir` field satisfies `|dir| == 1`. -/
theorem dir_magnitude_one (m0 : Machine) (d : Int) (ops : List Op)
    (hd : d = 1 ∨ d = -1) (hops : ∀ op ∈ ops, op.unitDir) :
    (run ops (setDir d m0)).axis.dir.natAbs = 1 := by
  rcases run_dir_unit ops (setDir d m0) hops hd with h | h <;> rw [h] <;> rfl

/-- C3, amended, concrete instance: `setDir(1)`, then `toggleDir`, `setDir(-1)`,
`toggleDir`, `doStep` leaves `|dir| == 1`. -/
theorem dir_magnitude_one_witness :
    (run [Op.toggleDir, Op.setDir (-1), Op.toggleDir, Op.doStep]
      (setDir 1 sampleMachine)).axis.dir.natAbs = 1 :=
  dir_magnitude_one sampleMachine 1 [Op.toggleDir, Op.setDir (-1), Op.toggleDir, Op.doStep]
    (by decide) (by decide)

/-- C4: for every state and every `int` value `d`, `setDir(d)` records `dir = d`, and
`setDir(d)`, `toggleDir`, `toggleDir` leaves `dir = d`; on every state `toggleDir`
applied twice gives back the `dir` it started from. -/
theorem setDir_toggleDir_toggleDir (m : Machine) (d : Int) (hd : isInt32 d)
    (hm : isInt32 m.axis.dir) :
    (setDir d m).axis.dir = d ∧
    (toggleDir (toggleDir (setDir d m))).axis.dir = (setDir d m).axis.dir ∧
    (toggleDir (toggleDir m)).axis.dir = m.axis.dir :=
  ⟨rfl, wrap32_neg_wrap32_neg hd, wrap32_neg_wrap32_neg hm⟩

/-- C4, concrete instance: `setDir(-1)`, `toggleDir`, `toggleDir` on the sample axis
leaves `dir = -1`. -/
theorem setDir_toggleDir_toggleDir_witness :
    (setDir (-1) sampleMachine).axis.dir = -1 ∧
    (toggleDir (toggleDir (setDir (-1) sampleMachine))).axis.dir
      = (setDir (-1) sampleMachine).axis.dir ∧
    (toggleDir (toggleDir sampleMachine)).axis.dir = sampleMachine.axis.dir :=
  setDir_toggleDir_toggleDir sampleMachine (-1) (by decide) (by decide)

/-! ## The step pulse -/

/-- C5: `clearStepPin` applied twice gives the same state, the step-pin level
included, as applied once, and `getPosition` returns the same value before and
after it. -/
theorem clearStepPin_idempotent (m : Machine) :
    clearStepPin (clearStepPin m) = clearStepPin m ∧
    stepPinLevel (clearStepPin (clearStepPin m)) = stepPinLevel (clearStepPin m) ∧
    getPosition (clearStepPin m) = getPosition m := by
  have h : clearStepPin (clearStepPin m) = clearStepPin m := by
    unfold clearStepPin
    simp only [digitalWrite_idem]
  exact ⟨h, by rw [h], rfl⟩

theorem abs32_eq_iff {x y : Int} (hx : isInt32 x) (hy : isInt32 y) :
    abs32 x = abs32 y ↔ x.natAbs = y.natAbs := by
  unfold isInt32 at hx hy
  unfold abs32 wrap32
  split <;> split <;> omega

/-- C7, as stated, fails: axes with `vMax = 5` and `vMax = -5` differ in the field
`vMax`, yet `cmpVmin` and `cmpVmax` are false in both argument orders. -/
theorem cmpVmin_cmpVmax_counterexample :
    ({ sampleAxis with vMax := 5 } : Stepper).vMax ≠ ({ sampleAxis with vMax := -5 } : Stepper).vMax ∧
    cmpVmin { sampleAxis with vMax := 5 } { sampleAxis with vMax := -5 } = false ∧
    cmpVmin { sampleAxis with vMax := -5 } { sampleAxis with vMax := 5 } = false ∧
    cmpVmax { sampleAxis with vMax := 5 } { sampleAxis with vMax := -5 } = false ∧
    cmpVmax { sampleAxis with vMax := -5 } { sampleAxis with vMax := 5 } = false := by
  decide

/-- C7, amended: for any two axes `x`, `y` whose compared key differs (`A` for
`cmpDelta`, `a` for `cmpAcc`, the magnitude `|vMax|` for `cmpVmin` and `cmpVmax`),
exactly one of `cmp(x, y)` and `cmp(y, x)` is true. -/
theorem comparators_total (x y : Stepper) (hx : isInt32 x.vMax) (hy : isInt32 y.vMax) :
    (x.A ≠ y.A → cmpDelta x y = !cmpDelta y x) ∧
    (x.a ≠ y.a → cmpAcc x y = !cmpAcc y x) ∧
    (x.vMax.natAbs ≠ y.vMax.natAbs → cmpVmin x y = !cmpVmin y x) ∧
    (x.vMax.natAbs ≠ y.vMax.natAbs → cmpVmax x y = !cmpVmax y x) := by
  have key : x.vMax.natAbs ≠ y.vMax.natAbs → abs32 x.vMax ≠ abs32 y.vMax :=
    fun h e => h ((abs32_eq_iff hx hy).1 e)
  refine ⟨fun h => ?_, fun h => ?_, fun h => ?_, fun h => ?_⟩
  · unfold cmpDelta
    rcases lt_trichotomy x.A y.A with h1 | h1 | h1
    · simp [h1, not_lt.2 h1.le]
    · exact absurd h1 h
    · simp [h1, not_lt.2 h1.le]
  · unfold cmpAcc
    rcases lt_trichotomy x.a y.a with h1 | h1 | h1
    · simp [h1, not_lt.2 h1.le]
    · exact absurd h1 h
    · simp [h1, not_lt.2 h1.le]
  · unfold cmpVmin
    rcases lt_trichotomy (abs32 x.vMax) (abs32 y.vMax) with h1 | h1 | h1
    · simp [h1, not_lt.2 h1.le]
    · exact absurd h1 (key h)
    · simp [h1, not_lt.2 h1.le]
  · unfold cmpVmax
    rcases lt_trichotomy (abs32 x.vMax) (abs32 y.vMax) with h1 | h1 | h1
    · simp [h1, not_lt.2 h1.le]
    · exact absurd h1 (key h)
    · simp [h1, not_lt.2 h1.le]

/-- C7, amended, concrete instance: axes with `vMax = 800` and `vMax = -300` are
ordered one way by `cmpVmin` and the other way by `cmpVmax`. -/
theorem comparators_total_witness :
    cmpVmin sampleAxis { sampleAxis with vMax := -300 }
      = !cmpVmin { sampleAxis with vMax := -300 } sampleAxis ∧
    cmpVmax sampleAxis { sampleAxis with vMax := -300 }
      = !cmpVmax { sampleAxis with vMax := -300 } sampleAxis :=
  have h := comparators_total sampleAxis { sampleAxis with vMax := -300 }
    (by decide) (by decide)
  ⟨h.2.2.1 (by decide), h.2.2.2 (by decide)⟩

/-! ## The direction pin -/

/-- C8: for every `d`, the level `setDir(d)` puts on the direction pin when the
inversion flag `reverse` is set is the complement of the level it puts there when
the flag is clear; and for a fixed flag the level for `d = +1` is the complement
of the level for `d = -1`. -/
theorem setDir_inversion (m1 m0 m : Machine) (d : Int) (h1 : m1.axis.reverse ≠ 0)
    (h0 : m0.axis.reverse = 0) :
    dirPinLevel (setDir d m1) = (!dirPinLevel (setDir d m0)) ∧
    dirPinLevel (setDir 1 m) = (!dirPinLevel (setDir (-1) m)) ∧
    dirPinLevel (setDir 1 m) ≠ dirPinLevel (setDir (-1) m) := by
  have e : ∀ (n : Machine) (c : Int), dirPinLevel (setDir c n)
      = levelOf (if c = 1 then n.axis.reverse else lnot n.axis.reverse) := by
    intro n c
    unfold dirPinLevel setDir
    simp only [digitalWrite_same]
  have hflip : dirPinLevel (setDir 1 m) = (!dirPinLevel (setDir (-1) m)) := by
    rw [e, e]
    simp [levelOf_lnot]
  refine ⟨?_, hflip, ?_⟩
  · rw [e, e, h0]
    by_cases hd : d = 1
    · simp [hd, levelOf, h1]
    · simp [hd, levelOf, lnot, h1]
  · rw [hflip]
    cases dirPinLevel (setDir (-1) m) <;> decide

/-- C8, concrete instance: on the sample axis `setDir(1)` drives the direction pin
low without inversion and high with inversion. -/
theorem setDir_inversion_witness :
    dirPinLevel (setDir 1 { sampleMachine with axis := { sampleAxis with reverse := 1 } })
      = (!dirPinLevel (setDir 1 sampleMachine)) :=
  (setDir_inversion { sampleMachine with axis := { sampleAxis with reverse := 1 } }
    sampleMachine sampleMachine 1 (by decide) (by decide)).1

/-! ## Frame conditions -/

/-- C9: `setDir(d)`, `toggleDir` and `clearStepPin` leave `getPosition()` unchanged,
and after `setPosition(p)` the call `getPosition()` returns `p`. -/
theorem getPosition_frame (m : Machine) (d p : Int) :
    getPosition (setDir d m) = getPosition m ∧
    getPosition (toggleDir m) = getPosition m ∧
    getPosition (clearStepPin m) = getPosition m ∧
    getPosition (setPosition p m) = p :=
  ⟨rfl, rfl, rfl, rfl⟩

/-- C10, as stated, fails: on an axis whose `stepPin` and `dirPin` members hold the
same pin number, `doStep` writes `polarity` to that pin (`digitalWrite(stepPin,
polarity)`) and so raises the level of the direction pin from low to high. -/
theorem dirPinLevel_doStep_counterexample :
    dirPinLevel sharedPinMachine = false ∧
    dirPinLevel (doStep sharedPinMachine) = true := by
  decide

/-- C10, amended: on every axis `doStep`, `clearStepPin` and `setPosition` leave `dir`
unchanged, `setPosition` leaves the direction-pin level unchanged, and after
`setDir(d)` the recorded `dir` equals `d`; on every axis whose step pin and
direction pin are different pins, `doStep` and `clearStepPin` leave the
direction-pin level unchanged. -/
theorem dir_frame (m : Machine) (d p : Int) :
    (doStep m).axis.dir = m.axis.dir ∧
    (clearStepPin m).axis.dir = m.axis.dir ∧
    (setPosition p m).axis.dir = m.axis.dir ∧
    dirPinLevel (setPosition p m) = dirPinLevel m ∧
    (setDir d m).axis.dir = d ∧
    (m.axis.stepPin ≠ m.axis.dirPin →
      dirPinLevel (doStep m) = dirPinLevel m ∧
      dirPinLevel (clearStepPin m) = dirPinLevel m) := by
  refine ⟨rfl, rfl, rfl, rfl, rfl, fun hpins => ⟨?_, ?_⟩⟩
  · unfold dirPinLevel doStep
    exact digitalWrite_other _ _ _ _ (Ne.symm hpins)
  · unfold dirPinLevel clearStepPin
    exact digitalWrite_other _ _ _ _ (Ne.symm hpins)

/-- C10, amended, concrete instance: the sample axis pulses on pin 2 and keeps the
level of its direction pin 3 through `doStep` and `clearStepPin`. -/
theorem dir_frame_witness :
    dirPinLevel (doStep sampleMachine) = dirPinLevel sampleMachine ∧
    dirPinLevel (clearStepPin sampleMachine) = dirPinLevel sampleMachine :=
  (dir_frame sampleMachine 1 0).2.2.2.2.2 (by decide)

/-! ## Configuration constants -/

/-- C11: the default constants of the class are `vMaxDefault = 800`,
`vPullInOutDefault = 100` and `aDefault = 2500`, and they lie inside the declared
bounds: `0 < 800 ≤ vMaxMax = 300000`, `0 < 100 ≤ 800` and `2500 ≤ aMax = 500000`. -/
theorem default_constants_in_bounds :
    vMaxDefault = 800 ∧ vPullInOutDefault = 100 ∧ aDefault = 2500 ∧
    vMaxMax = 300000 ∧ aMax = 500000 ∧
    0 < vMaxDefault ∧ (vMaxDefault : Int) ≤ vMaxMax ∧
    0 < vPullInOutDefault ∧ vPullInOutDefault ≤ vMaxDefault ∧
    aDefault ≤ aMax := by
  decide

/-! ## Comparators as orderings -/

/-- A comparator that tests `key x < key y` for a key in a linear order is a strict
weak ordering. -/
theorem isStrictWeakOrder_of_key {κ : Type} [LinearOrder κ] (key : Stepper → κ)
    (cmp : Stepper → Stepper → Bool) (h : ∀ x y, cmp x y = decide (key x < key y)) :
    IsStrictWeakOrder cmp := by
  refine ⟨fun x => ?_, fun x y => ?_, fun x y z => ?_, fun x y z => ?_⟩
  · simp [h]
  · simp only [h, decide_eq_true_eq, decide_eq_false_iff_not, not_lt]
    exact le_of_lt
  · simp only [h, decide_eq_true_eq]
    exact lt_trans
  · simp only [h, decide_eq_false_iff_not, not_lt]
    rintro ⟨h1, h2⟩ ⟨h3, h4⟩
    exact ⟨le_trans h3 h1, le_trans h2 h4⟩

/-- C13: each of `cmpDelta`, `cmpAcc`, `cmpVmin` and `cmpVmax` is a strict weak
ordering on all axes, whatever the sign or size of `vMax` (`std::abs` computed in
32 bits), and its result depends only on the compared field of its two arguments
(`A`, `a`, `vMax`, `vMax`); being functions to `bool` they change neither axis. -/
theorem comparators_strict_weak :
    IsStrictWeakOrder cmpDelta ∧ IsStrictWeakOrder cmpAcc ∧
    IsStrictWeakOrder cmpVmin ∧ IsStrictWeakOrder cmpVmax ∧
    (∀ x y x1 y1 : Stepper, x.A = x1.A → y.A = y1.A → cmpDelta x y = cmpDelta x1 y1) ∧
    (∀ x y x1 y1 : Stepper, x.a = x1.a → y.a = y1.a → cmpAcc x y = cmpAcc x1 y1) ∧
    (∀ x y x1 y1 : Stepper, x.vMax = x1.vMax → y.vMax = y1.vMax →
      cmpVmin x y = cmpVmin x1 y1) ∧
    (∀ x y x1 y1 : Stepper, x.vMax = x1.vMax → y.vMax = y1.vMax →
      cmpVmax x y = cmpVmax x1 y1) := by
  refine ⟨?_, ?_, ?_, ?_, ?_, ?_, ?_, ?_⟩
  · refine isStrictWeakOrder_of_key (fun s => -s.A) cmpDelta (fun x y => ?_)
    show decide (x.A > y.A) = decide (-x.A < -y.A)
    exact decide_eq_decide.2 ⟨fun h => by omega, fun h => by omega⟩
  · exact isStrictWeakOrder_of_key (fun s => s.a) cmpAcc (fun _ _ => rfl)
  · exact isStrictWeakOrder_of_key (fun s => abs32 s.vMax) cmpVmin (fun _ _ => rfl)
  · refine isStrictWeakOrder_of_key (fun s => -abs32 s.vMax) cmpVmax (fun x y => ?_)
    show decide (abs32 x.vMax > abs32 y.vMax) = decide (-abs32 x.vMax < -abs32 y.vMax)
    exact decide_eq_decide.2 ⟨fun h => by omega, fun h => by omega⟩
  · intro x y x1 y1 hx hy; unfold cmpDelta; rw [hx, hy]
  · intro x y x1 y1 hx hy; unfold cmpAcc; rw [hx, hy]
  · intro x y x1 y1 hx hy; unfold cmpVmin; rw [hx, hy]
  · intro x y x1 y1 hx hy; unfold cmpVmax; rw [hx, hy]

/-- C14: `cmpDelta(x, y)` holds exactly when `x.A > y.A`, and in a list of axes any
member `x` that no member `y` precedes (no `y` with `cmpDelta(y, x)`) has the
greatest `A` of the list. -/
theorem cmpDelta_lead_axis (l : List Stepper) (x : Stepper) (hx : x ∈ l)
    (hfirst : ∀ y ∈ l, cmpDelta y x = false) :
    (∀ u v : Stepper, cmpDelta u v = true ↔ u.A > v.A) ∧
    x ∈ l ∧ (∀ y ∈ l, y.A ≤ x.A) := by
  refine ⟨fun u v => by simp [cmpDelta], hx, fun y hy => ?_⟩
  have h := hfirst y hy
  unfold cmpDelta at h
  simpa using h

/-- C14, concrete instance: among axes with `A = 40`, `A = 100` and `A = -7` the one
with `A = 100` is preceded by none and has the greatest `A`. -/
theorem cmpDelta_lead_axis_witness :
    ({ sampleAxis with A := 40 } : Stepper).A ≤ ({ sampleAxis with A := 100 } : Stepper).A ∧
    ({ sampleAxis with A := -7 } : Stepper).A ≤ ({ sampleAxis with A := 100 } : Stepper).A :=
  have h := (cmpDelta_lead_axis
    [{ sampleAxis with A := 40 }, { sampleAxis with A := 100 }, { sampleAxis with A := -7 }]
    { sampleAxis with A := 100 } (by decide) (by decide)).2.2
  ⟨h { sampleAxis with A := 40 } (by decide), h { sampleAxis with A := -7 } (by decide)⟩

/-! ## Steps and direction changes -/

/-- C15: for every state (`current` and `dir` any `int32_t` values), `doStep`, then
`toggleDir`, then `doStep` leaves `current` at its original value and `dir` at the
32-bit negation of its original value, which is `-dir` for every `dir` other than
`INT32_MIN`. -/
theorem doStep_toggleDir_doStep (m : Machine) (hc : isInt32 m.axis.current)
    (hd : isInt32 m.axis.dir) :
    (doStep (toggleDir (doStep m))).axis.current = m.axis.current ∧
    (doStep (toggleDir (doStep m))).axis.dir = wrap32 (-m.axis.dir) ∧
    (m.axis.dir ≠ -2147483648 →
      (doStep (toggleDir (doStep m))).axis.dir = -m.axis.dir) := by
  have hcur : (doStep (toggleDir (doStep m))).axis.current
      = wrap32 (wrap32 (m.axis.current + m.axis.dir) + wrap32 (-m.axis.dir)) := rfl
  have hdir : (doStep (toggleDir (doStep m))).axis.dir = wrap32 (-m.axis.dir) := rfl
  refine ⟨?_, hdir, fun hne => ?_⟩
  · rw [hcur]
    unfold isInt32 at hc hd
    unfold wrap32
    omega
  · rw [hdir]
    unfold isInt32 at hd
    unfold wrap32
    omega

/-- C15, concrete instance: from `current = 0`, `dir = +1` the three calls end at
`current = 0`, `dir = -1`. -/
theorem doStep_toggleDir_doStep_witness :
    (doStep (toggleDir (doStep sampleMachine))).axis.current = 0 ∧
    (doStep (toggleDir (doStep sampleMachine))).axis.dir = -1 :=
  have h := doStep_toggleDir_doStep sampleMachine (by decide) (by decide)
  ⟨h.1, h.2.2 (by decide)⟩

/-- The level `setDir(d)` leaves on the direction pin: that of `reverse` for
`d == 1`, its complement for every other `d`. -/
theorem dirPinLevel_setDir (m : Machine) (d : Int) :
    dirPinLevel (setDir d m)
      = if d = 1 then levelOf m.axis.reverse else !levelOf m.axis.reverse := by
  unfold dirPinLevel setDir
  simp only [digitalWrite_same]
  split
  · rfl
  · exact levelOf_lnot _

/-- C16: for every integer `d`, `setDir(d)` records `dir = d` and puts the
direction pin at the level of `dir = +1` exactly when `d == 1`; every other value
(0, 2 and the negatives among them) gets the level of `dir = -1`. In the
direct-register build the store goes to `dirPinCwReg` for `d == 1` and to
`dirPinCcwReg` for every other `d`. -/
theorem setDir_pin_selection (m : Machine) (k : Kinetis.Machine) (d : Int) :
    (setDir d m).axis.dir = d ∧
    (dirPinLevel (setDir d m) = dirPinLevel (setDir 1 m) ↔ d = 1) ∧
    (d ≠ 1 → dirPinLevel (setDir d m) = dirPinLevel (setDir (-1) m)) ∧
    dirPinLevel (setDir 0 m) = dirPinLevel (setDir (-1) m) ∧
    dirPinLevel (setDir 2 m) = dirPinLevel (setDir (-1) m) ∧
    (Kinetis.setDir d k).axis.dir = d ∧
    (Kinetis.setDir d k).stores
      = k.stores ++ [(if d = 1 then k.axis.dirPinCwReg else k.axis.dirPinCcwReg, 1)] := by
  have hother : ∀ c : Int, c ≠ 1 →
      dirPinLevel (setDir c m) = dirPinLevel (setDir (-1) m) := by
    intro c hc
    rw [dirPinLevel_setDir, dirPinLevel_setDir, if_neg hc, if_neg (by decide)]
  refine ⟨rfl, ⟨fun h => ?_, fun h => by rw [h]⟩, hother d, hother 0 (by decide),
    hother 2 (by decide), rfl, rfl⟩
  by_contra hne
  rw [dirPinLevel_setDir, dirPinLevel_setDir, if_neg hne, if_pos rfl] at h
  cases hl : levelOf m.axis.reverse <;> rw [hl] at h <;> exact absurd h (by decide)

/-! ## The two builds -/

/-- One call keeps `current` and `dir` equal between the two builds. -/
theorem apply_builds_agree (op : Op) (m : Machine) (k : Kinetis.Machine)
    (hc : m.axis.current = k.axis.current) (hd : m.axis.dir = k.axis.dir) :
    (op.apply m).axis.current = (Kinetis.apply op k).axis.current ∧
    (op.apply m).axis.dir = (Kinetis.apply op k).axis.dir := by
  cases op with
  | setDir d => exact ⟨hc, rfl⟩
  | toggleDir =>
    refine ⟨hc, ?_⟩
    show wrap32 (-m.axis.dir) = wrap32 (-k.axis.dir)
    rw [hd]
  | setPosition pos => exact ⟨rfl, hd⟩
  | clearStepPin => exact ⟨hc, hd⟩
  | doStep =>
    refine ⟨?_, hd⟩
    show wrap32 (m.axis.current + m.axis.dir) = wrap32 (k.axis.current + k.axis.dir)
    rw [hc, hd]

/-- A sequence of calls keeps `current` and `dir` equal between the two builds. -/
theorem run_builds_agree (ops : List Op) :
    ∀ (m : Machine) (k : Kinetis.Machine), m.axis.current = k.axis.current →
      m.axis.dir = k.axis.dir →
      (run ops m).axis.current = (Kinetis.run ops k).axis.current ∧
      (run ops m).axis.dir = (Kinetis.run ops k).axis.dir := by
  induction ops with
  | nil => intro m k hc hd; exact ⟨hc, hd⟩
  | cons op ops ih =>
    intro m k hc hd
    have h := apply_builds_agree op m k hc hd
    exact ih (op.apply m) (Kinetis.apply op k) h.1 h.2

/-- C17: started from states with equal `current` and `dir`, the same sequence of
`doStep`, `clearStepPin`, `setDir(d)`, `toggleDir` (and `setPosition`) calls gives
equal `current` and `dir` in the `digitalWrite` build and in the direct-register
build; and after `setDir(d)` or `toggleDir` the `digitalWrite` build has the
direction pin at the level of `reverse`, and the direct-register build has stored
to `dirPinCwReg`, exactly when the new `dir` is 1 (otherwise the complementary
level, and `dirPinCcwReg`). -/
theorem builds_agree (ops : List Op) (m : Machine) (k : Kinetis.Machine)
    (hc : m.axis.current = k.axis.current) (hd : m.axis.dir = k.axis.dir) :
    (run ops m).axis.current = (Kinetis.run ops k).axis.current ∧
    (run ops m).axis.dir = (Kinetis.run ops k).axis.dir ∧
    (∀ d : Int,
      dirPinLevel (setDir d m)
        = (if (setDir d m).axis.dir = 1 then levelOf m.axis.reverse
            else !levelOf m.axis.reverse) ∧
      (Kinetis.setDir d k).stores
        = k.stores ++ [(if (Kinetis.setDir d k).axis.dir = 1 then k.axis.dirPinCwReg
            else k.axis.dirPinCcwReg, 1)]) ∧
    dirPinLevel (toggleDir m)
      = (if (toggleDir m).axis.dir = 1 then levelOf m.axis.reverse
          else !levelOf m.axis.reverse) ∧
    (Kinetis.toggleDir k).stores
      = k.stores ++ [(if (Kinetis.toggleDir k).axis.dir = 1 then k.axis.dirPinCwReg
          else k.axis.dirPinCcwReg, 1)] := by
  have h := run_builds_agree ops m k hc hd
  exact ⟨h.1, h.2, fun d => ⟨dirPinLevel_setDir m d, rfl⟩,
    dirPinLevel_setDir m (wrap32 (-m.axis.dir)), rfl⟩

/-- C17, concrete instance: the sample axes of the two builds agree on `current`
and `dir` after a step, a pulse clear, a toggle, a step and `setDir(1)`. -/
theorem builds_agree_witness :
    (run [Op.doStep, Op.clearStepPin, Op.toggleDir, Op.doStep, Op.setDir 1]
      sampleMachine).axis.current
      = (Kinetis.run [Op.doStep, Op.clearStepPin, Op.toggleDir, Op.doStep, Op.setDir 1]
          Kinetis.sampleMachine).axis.current ∧
    (run [Op.doStep, Op.clearStepPin, Op.toggleDir, Op.doStep, Op.setDir 1]
      sampleMachine).axis.dir
      = (Kinetis.run [Op.doStep, Op.clearStepPin, Op.toggleDir, Op.doStep, Op.setDir 1]
          Kinetis.sampleMachine).axis.dir :=
  have h := builds_agree [Op.doStep, Op.clearStepPin, Op.toggleDir, Op.doStep, Op.setDir 1]
    sampleMachine Kinetis.sampleMachine rfl rfl
  ⟨h.1, h.2.1⟩

end TeensyStep
